import Mathlib

/-!
Verification development for the gzfs `zdb` output parser and its TTL cache
(`zdb.go`): a shallow embedding of `ZDBPool`, `ZDBPoolChild`, `parseLine`,
`parseProp`, `zdbOutput` and `GetPool`, followed by theorems settling the
specification claims about them.

Strings are modelled with Lean `String`; Go byte/rune-level operations are
modelled on `List Char`.  Machine integers are modelled as `Int`/`Nat` with
explicit range checks where Go's `strconv` would overflow.  Time instants and
durations (`time.Time`, `time.Duration`) are modelled as `Int` nanoseconds.
The process-global cache map plus `time.Now()` plus the external command are
modelled by explicit state passing: the embedded `GetPool` takes the current
cache contents, the current time and the outcome of the (single possible)
external invocation as arguments and returns the result, the new cache
contents and whether the external command was invoked.
-/

namespace GZFS

/-- Model of Go `unicode.IsSpace` restricted to the ASCII whitespace
characters (space, tab, newline, vertical tab, form feed, carriage return);
the inputs in this development contain no exotic Unicode whitespace. -/
def goIsSpace (c : Char) : Bool :=
  c = ' ' || c = '\t' || c = '\n' || c = '\r' || c = Char.ofNat 11 || c = Char.ofNat 12

/-- Go `strings.TrimSpace`. -/
def goTrimSpace (s : String) : String :=
  String.mk (((s.data.dropWhile goIsSpace).reverse.dropWhile goIsSpace).reverse)

/-- Go `strings.TrimRight(s, "\n")`. -/
def goTrimRightNewlines (s : String) : String :=
  String.mk ((s.data.reverse.dropWhile (fun c => c = '\n')).reverse)

/-- Go `strings.TrimLeft(s, "\t ")`, on the character list. -/
def goTrimLeftTabSpace (l : List Char) : List Char :=
  l.dropWhile (fun c => c = '\t' || c = ' ')

/-- Split a character list at every occurrence of `sep`
(Go `strings.Split` for a one-character separator, on a non-empty string). -/
def splitChar (sep : Char) : List Char → List (List Char)
  | [] => [[]]
  | c :: rest =>
    let r := splitChar sep rest
    if c = sep then [] :: r
    else
      match r with
      | [] => [[c]]
      | h :: t => (c :: h) :: t

/-- Split a character list around the first `':'`
(Go `strings.SplitN(s, ":", 2)`; `none` when there is no colon,
in which case Go returns a single part). -/
def splitFirstColon : List Char → Option (List Char × List Char)
  | [] => none
  | c :: rest =>
    if c = ':' then some ([], rest)
    else
      match splitFirstColon rest with
      | none => none
      | some (a, b) => some (c :: a, b)

/-- Indentation depth of a raw line: the count of leading TAB characters. -/
def lineIndent (l : List Char) : Nat := (l.takeWhile (fun c => c = '\t')).length

/-- Numeric value of a list of decimal digit characters. -/
def digitsToNat (ds : List Char) : Nat :=
  ds.foldl (fun n c => n * 10 + (c.toNat - ('0').toNat)) 0

/-- Model of `fmt.Sscan(val, &x)` for `x : uint64` on the token forms the
`zdb` output and this development exercise: a non-empty run of decimal digits
is scanned (greedily; trailing non-digits are left unconsumed, as `Sscan`
stops after filling its one argument) and must fit in 64 bits.  Go's `%v`
scanning additionally accepts base-prefixed (`0x`, `0o`, `0b`) and
underscore-separated forms, which never occur here. -/
def goScanUint64 (val : String) : Except String Nat :=
  match val.data with
  | [] => .error ("unexpected EOF")
  | cs =>
    let ds := cs.takeWhile Char.isDigit
    if ds = [] then .error ("expected integer")
    else
      let n := digitsToNat ds
      if n < 2 ^ 64 then .ok n
      else .error (("strconv.ParseUint: parsing \x22" ++ String.mk ds) ++ ("\x22: value out of range"))

/-- Model of `fmt.Sscan(val, &x)` for `x : int` (64-bit) on the same token
forms: an optional sign followed by a non-empty run of decimal digits, with a
64-bit signed range check. -/
def goScanInt64 (val : String) : Except String Int :=
  match val.data with
  | [] => .error ("unexpected EOF")
  | c :: rest =>
    let signChars : List Char := if c = '-' || c = '+' then [c] else []
    let body : List Char := if c = '-' || c = '+' then rest else c :: rest
    let ds := body.takeWhile Char.isDigit
    if ds = [] then .error ("expected integer")
    else
      let mag : Int := digitsToNat ds
      let n : Int := if c = '-' then -mag else mag
      if -(2 ^ 63) ≤ n ∧ n < 2 ^ 63 then .ok n
      else .error (("strconv.ParseInt: parsing \x22" ++ String.mk (signChars ++ ds)) ++ ("\x22: value out of range"))

/-- Association-list model of a Go `map`: assignment overwrites in place or
appends a fresh binding; only `lookup` is ever observed. -/
def mapSet {α β : Type} [DecidableEq α] (m : List (α × β)) (k : α) (v : β) : List (α × β) :=
  if (m.lookup k).isSome then m.map (fun p => if p.1 = k then (k, v) else p)
  else m ++ [(k, v)]

/-- The scalar fields of Go `ZDBPoolChild`; `Type` is rendered `type_`
because `Type` is a Lean keyword.  Defaults are the Go zero values. -/
structure ZDBPoolChildData where
  type_ : String := ""
  ID : Int := 0
  GUID : Nat := 0
  Path : String := ""
  WholeDisk : Int := 0
  MetaslabArray : Int := 0
  MetaslabShift : Int := 0
  Ashift : Int := 0
  Asize : Nat := 0
  IsLog : Int := 0
  CreateTXG : Nat := 0
  Properties : List (String × String) := []
deriving DecidableEq, Repr

/-- Go `ZDBPoolChild`: the scalar fields plus the recursive `Children` list
(split into a wrapper inductive because Lean structures cannot be recursive). -/
inductive ZDBPoolChild : Type where
  | mk (data : ZDBPoolChildData) (Children : List ZDBPoolChild)

def ZDBPoolChild.data : ZDBPoolChild → ZDBPoolChildData
  | .mk d _ => d

def ZDBPoolChild.Children : ZDBPoolChild → List ZDBPoolChild
  | .mk _ ch => ch

/-- Go `ZDBPool`. -/
structure ZDBPool where
  Name : String
  GUID : String
  Version : String
  Children : List ZDBPoolChild

/-- Go `(*ZDBPool).parseLine`. -/
def ZDBPool.parseLine (p : ZDBPool) (prop val : String) : ZDBPool :=
  match prop with
  | "version" => { p with Version := val }
  | "name" => { p with Name := val }
  | _ => p

/-- The scalar-field part of Go `(*ZDBPoolChild).parseProp`: record the raw
property in the generic map, then convert recognized fields, propagating a
field-named conversion error.  Error messages follow
`fmt.Errorf("failed to parse <field>: %w", err)`. -/
def parsePropData (d0 : ZDBPoolChildData) (prop val : String) : Except String ZDBPoolChildData :=
    let d := { d0 with Properties := mapSet d0.Properties prop val }
    match prop with
    | "type" => .ok { d with type_ := val }
    | "id" =>
      match goScanInt64 val with
      | .ok n => .ok { d with ID := n }
      | .error e => .error (("failed to parse id: ") ++ e)
    | "guid" =>
      match goScanUint64 val with
      | .ok n => .ok { d with GUID := n }
      | .error e => .error (("failed to parse guid: ") ++ e)
    | "path" => .ok { d with Path := val }
    | "whole_disk" =>
      match goScanInt64 val with
      | .ok n => .ok { d with WholeDisk := n }
      | .error e => .error (("failed to parse whole_disk: ") ++ e)
    | "metaslab_array" =>
      match goScanInt64 val with
      | .ok n => .ok { d with MetaslabArray := n }
      | .error e => .error (("failed to parse metaslab_array: ") ++ e)
    | "metaslab_shift" =>
      match goScanInt64 val with
      | .ok n => .ok { d with MetaslabShift := n }
      | .error e => .error (("failed to parse metaslab_shift: ") ++ e)
    | "ashift" =>
      match goScanInt64 val with
      | .ok n => .ok { d with Ashift := n }
      | .error e => .error (("failed to parse ashift: ") ++ e)
    | "asize" =>
      match goScanUint64 val with
      | .ok n => .ok { d with Asize := n }
      | .error e => .error (("failed to parse asize: ") ++ e)
    | "is_log" =>
      match goScanInt64 val with
      | .ok n => .ok { d with IsLog := n }
      | .error e => .error (("failed to parse is_log: ") ++ e)
    | "create_txg" =>
      match goScanUint64 val with
      | .ok n => .ok { d with CreateTXG := n }
      | .error e => .error (("failed to parse create_txg: ") ++ e)
    | _ => .ok d

/-- Go `(*ZDBPoolChild).parseProp`; the `Children` field is untouched. -/
def ZDBPoolChild.parseProp (c : ZDBPoolChild) (prop val : String) : Except String ZDBPoolChild :=
  match c with
  | .mk d ch => (parsePropData d prop val).map (fun d' => .mk d' ch)

/-! ### The stack-based tree builder of `GetPool`

Go's parsing loop keeps a slice of `childFrame`s holding *pointers* into the
tree being built.  The embedding replaces each pointer by the index path of
the node it points at (a path `i :: rest` descends into `Children[i]`), with
the top of the stack at the head of the list; mutation through a pointer
becomes functional update at that path. -/

/-- Append a node to the children sequence addressed by `p` (`[]` addresses
the pool-level children list itself); an unreachable invalid path leaves the
forest unchanged. -/
def appendAt (cs : List ZDBPoolChild) (p : List Nat) (n : ZDBPoolChild) : List ZDBPoolChild :=
  match p with
  | [] => cs ++ [n]
  | i :: rest =>
    match cs[i]? with
    | some c => cs.set i (.mk c.data (appendAt c.Children rest n))
    | none => cs

/-- Length of the children sequence addressed by `p`. -/
def countAt (cs : List ZDBPoolChild) (p : List Nat) : Nat :=
  match p with
  | [] => cs.length
  | i :: rest =>
    match cs[i]? with
    | some c => countAt c.Children rest
    | none => 0

/-- Apply `f` to the node addressed by the (non-empty) path `p`, propagating
`f`'s error; an unreachable invalid path leaves the forest unchanged. -/
def updForest (cs : List ZDBPoolChild) (p : List Nat) (f : ZDBPoolChild → Except String ZDBPoolChild) : Except String (List ZDBPoolChild) :=
  match p with
  | [] => .ok cs
  | [i] =>
    match cs[i]? with
    | some c => (f c).map (fun c' => cs.set i c')
    | none => .ok cs
  | i :: rest =>
    match cs[i]? with
    | some c => (updForest c.Children rest f).map (fun ch' => cs.set i (.mk c.data ch'))
    | none => .ok cs

/-- Does the (non-empty) path `p` address a node of the forest? -/
def pathOk (cs : List ZDBPoolChild) : List Nat → Bool
  | [] => false
  | [i] => (cs[i]?).isSome
  | i :: rest =>
    match cs[i]? with
    | some c => pathOk c.Children rest
    | none => false

/-- Go's `childFrame`: one open node (by path, standing for the pointer)
plus the indentation depth at which it was opened. -/
structure childFrame where
  path : List Nat
  indent : Nat
deriving DecidableEq

/-- The parsing loop's state: the pool record being built and the stack of
open frames (top of stack at the head). -/
structure ParseState where
  pool : ZDBPool
  stack : List childFrame

/-- Shape of one raw line: `none` when the line is skipped (blank, or no
colon separator), otherwise the trimmed field name, trimmed value, and the
leading-TAB indentation depth. -/
def parseLineShape (raw : String) : Option (String × String × Nat) :=
  if goTrimSpace raw = "" then none
  else
    match splitFirstColon (goTrimLeftTabSpace raw.data) with
    | none => none
    | some (a, b) => some (goTrimSpace (String.mk a), goTrimSpace (String.mk b), lineIndent raw.data)

/-- The `prop == "type"` branch of the loop: pop frames opened at depth
`≥ indent`, attach the fresh node to the new top of stack (or at pool level),
and push it with the current depth. -/
def typeStep (s : ParseState) (val : String) (indent : Nat) : ParseState :=
  let newChild : ZDBPoolChild := .mk { type_ := val, Properties := [(("type" : String), val)] } []
  let stack' := s.stack.dropWhile (fun fr => indent ≤ fr.indent)
  let parentPath := match stack' with
    | [] => []
    | fr :: _ => fr.path
  { pool := { s.pool with Children := appendAt s.pool.Children parentPath newChild },
    stack := ⟨parentPath ++ [countAt s.pool.Children parentPath], indent⟩ :: stack' }

/-- The property branch of the loop: `parseProp` on the node currently on
top of the stack (no-op on an empty stack). -/
def propStep (s : ParseState) (prop val : String) : Except String ParseState :=
  match s.stack with
  | [] => .ok s
  | fr :: _ =>
    (updForest s.pool.Children fr.path (fun c => c.parseProp prop val)).map
      (fun cs' => { s with pool := { s.pool with Children := cs' } })

/-- One iteration of `GetPool`'s line loop. -/
def processLine (s : ParseState) (raw : String) : Except String ParseState :=
  match parseLineShape raw with
  | none => .ok s
  | some (prop, val, indent) =>
    if s.stack = [] ∧ (prop = "version" ∨ prop = "name") then
      .ok { s with pool := s.pool.parseLine prop val }
    else if prop = "type" then
      .ok (typeStep s val indent)
    else
      propStep s prop val

/-- The whole line loop. -/
def runLines (s : ParseState) : List String → Except String ParseState
  | [] => .ok s
  | l :: rest => (processLine s l).bind (fun s' => runLines s' rest)

/-- The state at the top of `GetPool`'s loop: `pool` carries the
caller-supplied name and GUID, the `Version` zero value, and an empty
children slice; the frame stack is empty. -/
def initState (name currentGUID : String) : ParseState :=
  { pool := { Name := name, GUID := currentGUID, Version := "", Children := [] }, stack := [] }

/-- The pure parsing core of `GetPool`: run the loop over the given lines
and return the finished pool record. -/
def parsePoolLines (name currentGUID : String) (lines : List String) : Except String ZDBPool :=
  (runLines (initState name currentGUID) lines).map (fun s => s.pool)

/-! ### `zdbOutput` and the cached `GetPool` -/

/-- Go `(*zdb).zdbOutput` applied to an already-captured stdout: trim
trailing newlines; empty text yields no lines, otherwise split on `\n`. -/
def zdbOutputLines (stdout : String) : List String :=
  let text := goTrimRightNewlines stdout
  if text = "" then []
  else (splitChar '\n' text.data).map String.mk

/-- Go `zdbCacheEntry` (expiry in nanoseconds). -/
structure zdbCacheEntry where
  pool : ZDBPool
  guid : String
  expiry : Int

/-- The cache key: `name`, or `name + "|" + currentGUID` when a GUID is
supplied. -/
def cacheKey (name currentGUID : String) : String :=
  if currentGUID ≠ "" then name ++ "|" ++ currentGUID else name

/-- The cache entry served by the read-locked lookup: present only when
caching is enabled, the key is bound, and the current time is before the
entry's expiry. -/
def liveEntry (cacheTTL : Int) (cache : List (String × zdbCacheEntry)) (key : String) (now : Int) : Option zdbCacheEntry :=
  if cacheTTL > 0 then
    match cache.lookup key with
    | some entry => if now < entry.expiry then some entry else none
    | none => none
  else none

/-- Outcome of one embedded `GetPool` call: the returned value or error, the
cache contents afterwards, and whether the external command was invoked. -/
structure GetPoolOutcome where
  result : Except String ZDBPool
  cache : List (String × zdbCacheEntry)
  invoked : Bool

/-- The fetch-and-parse path of `GetPool` (everything after the cache
lookup), with the external invocation's outcome passed in as `fetch`. -/
def fetchAndParse (cacheTTL : Int) (cache : List (String × zdbCacheEntry)) (now : Int)
    (fetch : Except String String) (name currentGUID : String) : GetPoolOutcome :=
  match fetch with
  | .error e => { result := .error e, cache := cache, invoked := true }
  | .ok stdout =>
    if zdbOutputLines stdout = [] then
      { result := .error (("no output from zdb for pool ") ++ name), cache := cache, invoked := true }
    else
      match parsePoolLines name currentGUID (zdbOutputLines stdout) with
      | .error e => { result := .error e, cache := cache, invoked := true }
      | .ok pool =>
        { result := .ok pool,
          cache :=
            if cacheTTL > 0 then
              mapSet cache (cacheKey name currentGUID)
                { pool := pool, guid := currentGUID, expiry := now + cacheTTL }
            else cache,
          invoked := true }

/-- Go `(*zdb).GetPool` as a state-passing function: serve a live cache
entry without invoking the external command, otherwise fetch, parse, and
(when caching is enabled) store the fresh record with expiry `now + TTL`. -/
def GetPool (cacheTTL : Int) (cache : List (String × zdbCacheEntry)) (now : Int)
    (fetch : Except String String) (name currentGUID : String) : GetPoolOutcome :=
  match liveEntry cacheTTL cache (cacheKey name currentGUID) now with
  | some entry => { result := .ok entry.pool, cache := cache, invoked := false }
  | none => fetchAndParse cacheTTL cache now fetch name currentGUID

/-- `NewClient`'s derivation of the zdb cache TTL (nanoseconds) from the
configured `ZDBCacheTTLSeconds`: a negative configuration is replaced by the
five-minute default. -/
def newClientZDBCacheTTL (seconds : Int) : Int :=
  if seconds < 0 then 300000000000 else seconds * 1000000000

/-! ### Helper lemmas -/

/-- The conversion attempted by `parseProp` for each recognized numeric
field, returning the conversion error when it fails (`none` for `type`,
`path` and unrecognized fields, which cannot fail). -/
def fieldScanErr (prop val : String) : Option String :=
  match prop with
  | "id" | "whole_disk" | "metaslab_array" | "metaslab_shift" | "ashift" | "is_log" =>
    match goScanInt64 val with
    | .ok _ => none
    | .error e => some e
  | "guid" | "asize" | "create_txg" =>
    match goScanUint64 val with
    | .ok _ => none
    | .error e => some e
  | _ => none

/-- The message of the error with which `parseProp` aborts when the
conversion of field `prop` fails with inner error `m`. -/
def fieldErrMsg (prop m : String) : String :=
  (("failed to parse ") ++ prop) ++ ((": ") ++ m)

/-- Frame indents strictly decrease from the top of the stack downwards. -/
def stackSorted (st : List childFrame) : Prop :=
  List.Pairwise (fun a b => b.indent < a.indent) st

/-- The loop invariant: the stack is sorted by opening depth and every frame
addresses a node of the tree built so far. -/
def StateInv (s : ParseState) : Prop :=
  stackSorted s.stack ∧ ∀ fr ∈ s.stack, pathOk s.pool.Children fr.path = true

/-- The `type`-line step as the specification words it ("pop stack frames
whose recorded depth is greater than or equal to the current line's depth"
— i.e. keep exactly the frames opened strictly shallower — "attach the new
node as a child of the now-top-of-stack node, or as a new top-level child
... if the stack is empty. Push the new node (with its depth)."); to be
compared with the code-derived `typeStep`. -/
def typeStepFromSpec (s : ParseState) (val : String) (d : Nat) : ParseState :=
  let kept := s.stack.filter (fun fr => fr.indent < d)
  let parentPath := match kept with
    | [] => []
    | fr :: _ => fr.path
  { pool := { s.pool with
      Children := appendAt s.pool.Children parentPath
        (.mk { type_ := val, Properties := [(("type" : String), val)] } []) },
    stack := ⟨parentPath ++ [countAt s.pool.Children parentPath], d⟩ :: kept }

/-- A small reachable parser state used to instantiate the universally
quantified claims: the state after processing the single line
`"\ttype: root"` from the initial state for pool `t`. -/
def witnessState : ParseState :=
  { pool :=
      { Name := ("t")
        GUID := ("")
        Version := ("")
        Children := [ZDBPoolChild.mk
          { type_ := ("root"), Properties := [(("type" : String), ("root" : String))] } []] }
    stack := [⟨[0], 1⟩] }

/-- The thirteen-line sample input of the specification's round-trip
property (the `testutil.ZDBOutput` fixture), already split into lines. -/
def sampleLines : List String :=
  [("version: 5000"), ("name: tank"), ("\ttype: root"), ("\t\tid: 0"),
   ("\t\tguid: 12345678901234567890"), ("\t\tpath: /dev/ada0p3"), ("\t\twhole_disk: 0"),
   ("\t\tmetaslab_array: 71"), ("\t\tmetaslab_shift: 24"), ("\t\tashift: 9"),
   ("\t\tasize: 10737418240"), ("\t\tis_log: 0"), ("\t\tcreate_txg: 4")]

/-! ### Helper lemmas -/

theorem runLines_append (ls1 : List String) (s : ParseState) (ls2 : List String) :
    runLines s (ls1 ++ ls2) = (runLines s ls1).bind (fun s' => runLines s' ls2) := by
  induction ls1 generalizing s with
  | nil => rfl
  | cons l rest ih =>
    show (processLine s l).bind (fun s' => runLines s' (rest ++ ls2))
        = ((processLine s l).bind (fun s' => runLines s' rest)).bind (fun s' => runLines s' ls2)
    cases processLine s l with
    | error e => rfl
    | ok s' => exact ih s'

theorem parseLine_Children (p : ZDBPool) (prop val : String) :
    (p.parseLine prop val).Children = p.Children := by
  unfold ZDBPool.parseLine
  split <;> rfl

theorem parseLine_GUID (p : ZDBPool) (prop val : String) :
    (p.parseLine prop val).GUID = p.GUID := by
  unfold ZDBPool.parseLine
  split <;> rfl

theorem parseProp_Children {c c' : ZDBPoolChild} {prop val : String}
    (h : c.parseProp prop val = .ok c') : c'.Children = c.Children := by
  cases c with
  | mk d ch =>
    simp only [ZDBPoolChild.parseProp] at h
    cases hd : parsePropData d prop val with
    | error e => rw [hd] at h; cases h
    | ok d' =>
      rw [hd] at h
      simp only [Except.map] at h
      cases h
      rfl

/-- Uniform unfolding of `pathOk` at a cons path. -/
theorem pathOk_cons (cs : List ZDBPoolChild) (j : Nat) (q2 : List Nat) :
    pathOk cs (j :: q2)
      = (match cs[j]? with
         | none => false
         | some c => q2.isEmpty || pathOk c.Children q2) := by
  cases q2 with
  | nil =>
    show (cs[j]?).isSome
        = (match cs[j]? with
           | none => false
           | some c => List.isEmpty [] || pathOk c.Children [])
    cases cs[j]? <;> rfl
  | cons j2 q3 =>
    show (match cs[j]? with
          | some c => pathOk c.Children (j2 :: q3)
          | none => false)
        = (match cs[j]? with
           | none => false
           | some c => (j2 :: q3).isEmpty || pathOk c.Children (j2 :: q3))
    cases cs[j]? with
    | none => rfl
    | some c =>
      show pathOk c.Children (j2 :: q3) = ((j2 :: q3).isEmpty || pathOk c.Children (j2 :: q3))
      rw [List.isEmpty_cons, Bool.false_or]

theorem getElem?_some_lt {α : Type} {l : List α} {i : Nat} {a : α}
    (h : l[i]? = some a) : i < l.length := by
  rcases List.getElem?_eq_some_iff.mp h with ⟨hlt, -⟩
  exact hlt

theorem ZDBPoolChild.data_mk (d : ZDBPoolChildData) (ch : List ZDBPoolChild) :
    (ZDBPoolChild.mk d ch).data = d := rfl

theorem ZDBPoolChild.Children_mk (d : ZDBPoolChildData) (ch : List ZDBPoolChild) :
    (ZDBPoolChild.mk d ch).Children = ch := rfl

theorem appendAt_nil (cs : List ZDBPoolChild) (n : ZDBPoolChild) :
    appendAt cs [] n = cs ++ [n] := rfl

theorem appendAt_cons_none {cs : List ZDBPoolChild} {i : Nat} (p2 : List Nat)
    (n : ZDBPoolChild) (hg : cs[i]? = none) : appendAt cs (i :: p2) n = cs := by
  simp [appendAt, hg]

theorem appendAt_cons_some {cs : List ZDBPoolChild} {i : Nat} {c : ZDBPoolChild}
    (p2 : List Nat) (n : ZDBPoolChild) (hg : cs[i]? = some c) :
    appendAt cs (i :: p2) n = cs.set i (.mk c.data (appendAt c.Children p2 n)) := by
  simp [appendAt, hg]

theorem countAt_nil (cs : List ZDBPoolChild) : countAt cs [] = cs.length := rfl

theorem countAt_cons_some {cs : List ZDBPoolChild} {i : Nat} {c : ZDBPoolChild}
    (p2 : List Nat) (hg : cs[i]? = some c) :
    countAt cs (i :: p2) = countAt c.Children p2 := by
  simp [countAt, hg]

theorem updForest_nil (cs : List ZDBPoolChild) (f : ZDBPoolChild → Except String ZDBPoolChild) :
    updForest cs [] f = .ok cs := rfl

theorem updForest_single_some {cs : List ZDBPoolChild} {i : Nat} {c : ZDBPoolChild}
    (f : ZDBPoolChild → Except String ZDBPoolChild) (hg : cs[i]? = some c) :
    updForest cs [i] f = (f c).map (fun c1 => cs.set i c1) := by
  simp [updForest, hg]

theorem updForest_cons_some {cs : List ZDBPoolChild} {i j : Nat} {c : ZDBPoolChild}
    (p3 : List Nat) (f : ZDBPoolChild → Except String ZDBPoolChild) (hg : cs[i]? = some c) :
    updForest cs (i :: j :: p3) f
      = (updForest c.Children (j :: p3) f).map (fun ch1 => cs.set i (.mk c.data ch1)) := by
  simp [updForest, hg]

/-- Appending a node anywhere in the forest keeps every valid path valid
(children sequences only grow, and existing indices keep their nodes). -/
theorem appendAt_pathOk (n : ZDBPoolChild) :
    ∀ (p : List Nat) (cs : List ZDBPoolChild) (q : List Nat),
      pathOk cs q = true → pathOk (appendAt cs p n) q = true := by
  intro p
  induction p with
  | nil =>
    intro cs q hq
    cases q with
    | nil => simp [pathOk] at hq
    | cons j q2 =>
      rw [pathOk_cons] at hq
      rw [appendAt_nil, pathOk_cons]
      cases hg : cs[j]? with
      | none => rw [hg] at hq; cases hq
      | some c =>
        rw [hg] at hq
        rw [List.getElem?_append_left (getElem?_some_lt hg), hg]
        exact hq
  | cons i p2 ih =>
    intro cs q hq
    cases hg : cs[i]? with
    | none => rw [appendAt_cons_none p2 n hg]; exact hq
    | some c =>
      rw [appendAt_cons_some p2 n hg]
      cases q with
      | nil => simp [pathOk] at hq
      | cons j q2 =>
        rw [pathOk_cons] at hq
        rw [pathOk_cons]
        by_cases hij : i = j
        · subst hij
          rw [List.getElem?_set_self (getElem?_some_lt hg)]
          rw [hg] at hq
          show (q2.isEmpty || pathOk (ZDBPoolChild.mk c.data (appendAt c.Children p2 n)).Children q2) = true
          rw [ZDBPoolChild.Children_mk]
          have hq1 : (q2.isEmpty || pathOk c.Children q2) = true := hq
          rcases Bool.or_eq_true_iff.mp hq1 with he | hrec
          · rw [he]; rfl
          · rw [ih c.Children q2 hrec, Bool.or_true]
        · rw [List.getElem?_set_ne hij]
          exact hq

/-- The path of a freshly appended node (its parent's path extended by the
parent's old child count) is valid in the extended forest. -/
theorem appendAt_newPathOk (n : ZDBPoolChild) :
    ∀ (p : List Nat) (cs : List ZDBPoolChild),
      (p = [] ∨ pathOk cs p = true) →
      pathOk (appendAt cs p n) (p ++ [countAt cs p]) = true := by
  intro p
  induction p with
  | nil =>
    intro cs _
    rw [appendAt_nil, countAt_nil]
    show pathOk (cs ++ [n]) [cs.length] = true
    simp [pathOk, List.getElem?_concat_length]
  | cons i p2 ih =>
    intro cs hp
    rcases hp with hp | hp
    · cases hp
    · rw [pathOk_cons] at hp
      cases hg : cs[i]? with
      | none => rw [hg] at hp; cases hp
      | some c =>
        rw [hg] at hp
        rw [appendAt_cons_some p2 n hg, countAt_cons_some p2 hg]
        show pathOk (cs.set i (.mk c.data (appendAt c.Children p2 n)))
            (i :: (p2 ++ [countAt c.Children p2])) = true
        rw [pathOk_cons, List.getElem?_set_self (getElem?_some_lt hg)]
        show ((p2 ++ [countAt c.Children p2]).isEmpty
            || pathOk (ZDBPoolChild.mk c.data (appendAt c.Children p2 n)).Children
                (p2 ++ [countAt c.Children p2])) = true
        rw [ZDBPoolChild.Children_mk]
        have hrec : pathOk (appendAt c.Children p2 n) (p2 ++ [countAt c.Children p2]) = true := by
          apply ih
          cases p2 with
          | nil => exact Or.inl rfl
          | cons j q3 => right; simpa using hp
        rw [hrec, Bool.or_true]

/-- Every frame surviving the pop loop was opened strictly shallower than
the current line. -/
theorem dropWhile_lt_of_sorted (d : Nat) :
    ∀ (st : List childFrame), stackSorted st →
      ∀ fr ∈ st.dropWhile (fun fr => d ≤ fr.indent), fr.indent < d := by
  intro st
  induction st with
  | nil => intro _ fr hmem; simp at hmem
  | cons a rest ih =>
    intro hp fr hmem
    rw [stackSorted, List.pairwise_cons] at hp
    rw [List.dropWhile_cons] at hmem
    by_cases hd : d ≤ a.indent
    · rw [if_pos (by simpa using hd)] at hmem
      exact ih hp.2 fr hmem
    · rw [if_neg (by simpa using hd)] at hmem
      rcases List.mem_cons.mp hmem with rfl | hmem2
      · omega
      · have := hp.1 fr hmem2
        omega

/-- On a sorted stack, the pop loop (pop while the top was opened at depth
`≥ d`) removes exactly the frames opened at depth `≥ d`. -/
theorem dropWhile_eq_filter_of_sorted (d : Nat) :
    ∀ (st : List childFrame), stackSorted st →
      st.dropWhile (fun fr => d ≤ fr.indent) = st.filter (fun fr => fr.indent < d) := by
  intro st
  induction st with
  | nil => intro _; rfl
  | cons a rest ih =>
    intro hp
    rw [stackSorted, List.pairwise_cons] at hp
    rw [List.dropWhile_cons, List.filter_cons]
    by_cases hd : d ≤ a.indent
    · rw [if_pos (by simpa using hd), if_neg (by simp; omega)]
      exact ih hp.2
    · rw [if_neg (by simpa using hd), if_pos (by simp; omega)]
      rw [List.filter_eq_self.mpr]
      intro x hx
      have := hp.1 x hx
      simp
      omega

/-- If `f` fails with the same error on every node, updating through any
valid path fails with that error. -/
theorem updForest_error_of_const {f : ZDBPoolChild → Except String ZDBPoolChild} {m : String}
    (hf : ∀ c, f c = .error m) :
    ∀ (p : List Nat) (cs : List ZDBPoolChild), pathOk cs p = true → updForest cs p f = .error m := by
  intro p
  induction p with
  | nil => intro cs h; simp [pathOk] at h
  | cons i p2 ih =>
    intro cs h
    rw [pathOk_cons] at h
    cases hg : cs[i]? with
    | none => rw [hg] at h; cases h
    | some c =>
      rw [hg] at h
      cases p2 with
      | nil =>
        rw [updForest_single_some f hg, hf c]
        rfl
      | cons j q3 =>
        rw [updForest_cons_some q3 f hg, ih c.Children (by simpa using h)]
        rfl

/-- A children-preserving update through any path preserves the validity of
every path of the forest. -/
theorem updForest_pathOk {f : ZDBPoolChild → Except String ZDBPoolChild}
    (hf : ∀ c c1, f c = .ok c1 → c1.Children = c.Children) :
    ∀ (p : List Nat) (cs cs1 : List ZDBPoolChild), updForest cs p f = .ok cs1 →
      ∀ q, pathOk cs1 q = pathOk cs q := by
  intro p
  induction p with
  | nil =>
    intro cs cs1 h q
    cases h
    rfl
  | cons i p2 ih =>
    intro cs cs1 h q
    cases p2 with
    | nil =>
      cases hg : cs[i]? with
      | none =>
        rw [show updForest cs [i] f = .ok cs by simp [updForest, hg]] at h
        cases h
        rfl
      | some c =>
        rw [updForest_single_some f hg] at h
        cases hfc : f c with
        | error e => rw [hfc] at h; cases h
        | ok c1 =>
          rw [hfc] at h
          cases h
          have hch : c1.Children = c.Children := hf c c1 hfc
          cases q with
          | nil => rfl
          | cons j q2 =>
            rw [pathOk_cons, pathOk_cons]
            by_cases hij : i = j
            · subst hij
              rw [List.getElem?_set_self (getElem?_some_lt hg), hg]
              show (q2.isEmpty || pathOk c1.Children q2) = (q2.isEmpty || pathOk c.Children q2)
              rw [hch]
            · rw [List.getElem?_set_ne hij]
    | cons j2 p3 =>
      cases hg : cs[i]? with
      | none =>
        rw [show updForest cs (i :: j2 :: p3) f = .ok cs by simp [updForest, hg]] at h
        cases h
        rfl
      | some c =>
        rw [updForest_cons_some p3 f hg] at h
        cases hup : updForest c.Children (j2 :: p3) f with
        | error e => rw [hup] at h; cases h
        | ok ch1 =>
          rw [hup] at h
          cases h
          have hrec := ih c.Children ch1 hup
          cases q with
          | nil => rfl
          | cons j q2 =>
            rw [pathOk_cons, pathOk_cons]
            by_cases hij : i = j
            · subst hij
              rw [List.getElem?_set_self (getElem?_some_lt hg), hg]
              show (q2.isEmpty || pathOk (ZDBPoolChild.mk c.data ch1).Children q2)
                  = (q2.isEmpty || pathOk c.Children q2)
              rw [ZDBPoolChild.Children_mk, hrec q2]
            · rw [List.getElem?_set_ne hij]

theorem processLine_none {raw : String} (s : ParseState)
    (hshape : parseLineShape raw = none) : processLine s raw = .ok s := by
  unfold processLine
  rw [hshape]

theorem processLine_some {raw prop val : String} {ind : Nat} (s : ParseState)
    (hshape : parseLineShape raw = some (prop, val, ind)) :
    processLine s raw
      = (if s.stack = [] ∧ (prop = "version" ∨ prop = "name") then
           .ok { s with pool := s.pool.parseLine prop val }
         else if prop = "type" then .ok (typeStep s val ind)
         else propStep s prop val) := by
  unfold processLine
  rw [hshape]

theorem propStep_nil {s : ParseState} (hst : s.stack = []) (prop val : String) :
    propStep s prop val = .ok s := by
  unfold propStep
  rw [hst]

theorem propStep_cons {s : ParseState} {fr : childFrame} {rest : List childFrame}
    (hst : s.stack = fr :: rest) (prop val : String) :
    propStep s prop val
      = (updForest s.pool.Children fr.path (fun c => c.parseProp prop val)).map
          (fun cs1 => { s with pool := { s.pool with Children := cs1 } }) := by
  unfold propStep
  rw [hst]

theorem initState_inv (name currentGUID : String) : StateInv (initState name currentGUID) := by
  constructor
  · exact List.Pairwise.nil
  · intro fr hfr
    simp [initState] at hfr

/-- The `type` branch preserves the loop invariant. -/
theorem typeStep_inv {s : ParseState} (hinv : StateInv s) (val : String) (ind : Nat) :
    StateInv (typeStep s val ind) := by
  obtain ⟨hsort, hpaths⟩ := hinv
  have hsub := (List.dropWhile_sublist (l := s.stack) (fun fr => ind ≤ fr.indent)).subset
  have hparent : (match s.stack.dropWhile (fun fr => ind ≤ fr.indent) with
        | [] => ([] : List Nat)
        | fr :: _ => fr.path) = []
      ∨ pathOk s.pool.Children
          (match s.stack.dropWhile (fun fr => ind ≤ fr.indent) with
           | [] => ([] : List Nat)
           | fr :: _ => fr.path) = true := by
    cases hst : s.stack.dropWhile (fun fr => ind ≤ fr.indent) with
    | nil => exact Or.inl rfl
    | cons fr rest =>
      right
      exact hpaths fr (hsub (hst ▸ List.mem_cons_self fr rest))
  constructor
  · rw [show (typeStep s val ind).stack
        = ⟨(match s.stack.dropWhile (fun fr => ind ≤ fr.indent) with
            | [] => ([] : List Nat)
            | fr :: _ => fr.path)
              ++ [countAt s.pool.Children
                  (match s.stack.dropWhile (fun fr => ind ≤ fr.indent) with
                   | [] => ([] : List Nat)
                   | fr :: _ => fr.path)], ind⟩
            :: s.stack.dropWhile (fun fr => ind ≤ fr.indent) from rfl]
    rw [stackSorted, List.pairwise_cons]
    constructor
    · intro x hx
      exact dropWhile_lt_of_sorted ind s.stack hsort x hx
    · exact List.Pairwise.sublist (List.dropWhile_sublist _) hsort
  · intro fr hfr
    rcases List.mem_cons.mp hfr with rfl | hfr2
    · exact appendAt_newPathOk _ _ _ hparent
    · exact appendAt_pathOk _ _ _ _ (hpaths fr (hsub hfr2))

/-- One loop iteration preserves the invariant. -/
theorem processLine_inv {s s' : ParseState} {raw : String}
    (hinv : StateInv s) (h : processLine s raw = .ok s') : StateInv s' := by
  cases hshape : parseLineShape raw with
  | none => rw [processLine_none s hshape] at h; cases h; exact hinv
  | some t =>
    obtain ⟨prop, val, ind⟩ := t
    rw [processLine_some s hshape] at h
    by_cases h1 : s.stack = [] ∧ (prop = "version" ∨ prop = "name")
    · rw [if_pos h1] at h
      cases h
      constructor
      · exact hinv.1
      · intro fr hfr
        have : fr ∈ s.stack := hfr
        rw [h1.1] at this
        cases this
    · rw [if_neg h1] at h
      by_cases h2 : prop = "type"
      · rw [if_pos h2] at h
        cases h
        exact typeStep_inv hinv val ind
      · rw [if_neg h2] at h
        cases hst : s.stack with
        | nil =>
          rw [propStep_nil hst prop val] at h
          cases h
          exact hinv
        | cons fr rest =>
          rw [propStep_cons hst prop val] at h
          cases hup : updForest s.pool.Children fr.path (fun c => c.parseProp prop val) with
          | error e => rw [hup] at h; cases h
          | ok cs1 =>
            rw [hup] at h
            simp only [Except.map] at h
            cases h
            constructor
            · exact hinv.1
            · intro fr2 hfr2
              rw [updForest_pathOk (fun c c1 hc => parseProp_Children hc) fr.path
                s.pool.Children cs1 hup fr2.path]
              exact hinv.2 fr2 hfr2

/-- Any successful run from a state satisfying the invariant ends in a state
satisfying it. -/
theorem runLines_inv : ∀ {ls : List String} {s s' : ParseState},
    StateInv s → runLines s ls = .ok s' → StateInv s' := by
  intro ls
  induction ls with
  | nil =>
    intro s s' hinv h
    cases h
    exact hinv
  | cons l rest ih =>
    intro s s' hinv h
    rw [show runLines s (l :: rest) = (processLine s l).bind (fun s1 => runLines s1 rest) from rfl] at h
    cases hpl : processLine s l with
    | error e => rw [hpl] at h; cases h
    | ok s1 =>
      rw [hpl] at h
      exact ih (processLine_inv hinv hpl) h

theorem processLine_pool_GUID {s s' : ParseState} {raw : String}
    (h : processLine s raw = .ok s') : s'.pool.GUID = s.pool.GUID := by
  cases hshape : parseLineShape raw with
  | none => rw [processLine_none s hshape] at h; cases h; rfl
  | some t =>
    obtain ⟨prop, val, ind⟩ := t
    rw [processLine_some s hshape] at h
    by_cases h1 : s.stack = [] ∧ (prop = "version" ∨ prop = "name")
    · rw [if_pos h1] at h
      cases h
      exact parseLine_GUID s.pool prop val
    · rw [if_neg h1] at h
      by_cases h2 : prop = "type"
      · rw [if_pos h2] at h
        cases h
        rfl
      · rw [if_neg h2] at h
        cases hst : s.stack with
        | nil => rw [propStep_nil hst prop val] at h; cases h; rfl
        | cons fr rest =>
          rw [propStep_cons hst prop val] at h
          cases hup : updForest s.pool.Children fr.path (fun c => c.parseProp prop val) with
          | error e => rw [hup] at h; cases h
          | ok cs1 =>
            rw [hup] at h
            simp only [Except.map] at h
            cases h
            rfl

theorem runLines_pool_GUID : ∀ {ls : List String} {s s' : ParseState},
    runLines s ls = .ok s' → s'.pool.GUID = s.pool.GUID := by
  intro ls
  induction ls with
  | nil => intro s s' h; cases h; rfl
  | cons l rest ih =>
    intro s s' h
    rw [show runLines s (l :: rest) = (processLine s l).bind (fun s1 => runLines s1 rest) from rfl] at h
    cases hpl : processLine s l with
    | error e => rw [hpl] at h; cases h
    | ok s1 =>
      rw [hpl] at h
      rw [ih h, processLine_pool_GUID hpl]

/-- When the conversion of a recognized field fails, `parsePropData` aborts
with the field-named message, whatever the node's current contents. -/
theorem parsePropData_scan_error {prop val m : String} (h : fieldScanErr prop val = some m)
    (d : ZDBPoolChildData) : parsePropData d prop val = .error (fieldErrMsg prop m) := by
  unfold fieldScanErr at h
  split at h
  all_goals first
    | cases h
    | (cases hscan : goScanInt64 val with
       | ok n => rw [hscan] at h; cases h
       | error e =>
         rw [hscan] at h
         injection h with h
         subst h
         unfold parsePropData
         rw [hscan]
         rfl)
    | (cases hscan : goScanUint64 val with
       | ok n => rw [hscan] at h; cases h
       | error e =>
         rw [hscan] at h
         injection h with h
         subst h
         unfold parsePropData
         rw [hscan]
         rfl)

/-- When the conversion of a recognized field fails, `parseProp` aborts
with the field-named message, whatever the node's current contents. -/
theorem parseProp_scan_error {prop val m : String} (h : fieldScanErr prop val = some m)
    (c : ZDBPoolChild) : c.parseProp prop val = .error (fieldErrMsg prop m) := by
  cases c with
  | mk d ch =>
    simp only [ZDBPoolChild.parseProp]
    rw [parsePropData_scan_error h d]
    rfl

/-- On a sorted stack the code's `type` step is exactly the spec's. -/
theorem typeStep_eq_spec {s : ParseState} (hsort : stackSorted s.stack) (val : String) (d : Nat) :
    typeStep s val d = typeStepFromSpec s val d := by
  unfold typeStep typeStepFromSpec
  rw [dropWhile_eq_filter_of_sorted d s.stack hsort]

theorem GetPool_hit {cacheTTL : Int} {cache : List (String × zdbCacheEntry)} {now : Int}
    {fetch : Except String String} {name currentGUID : String} {entry : zdbCacheEntry}
    (hlive : liveEntry cacheTTL cache (cacheKey name currentGUID) now = some entry) :
    GetPool cacheTTL cache now fetch name currentGUID
      = { result := .ok entry.pool, cache := cache, invoked := false } := by
  unfold GetPool
  rw [hlive]

theorem GetPool_miss {cacheTTL : Int} {cache : List (String × zdbCacheEntry)} {now : Int}
    {fetch : Except String String} {name currentGUID : String}
    (hlive : liveEntry cacheTTL cache (cacheKey name currentGUID) now = none) :
    GetPool cacheTTL cache now fetch name currentGUID
      = fetchAndParse cacheTTL cache now fetch name currentGUID := by
  unfold GetPool
  rw [hlive]

theorem fetchAndParse_err (cacheTTL : Int) (cache : List (String × zdbCacheEntry)) (now : Int)
    (e : String) (name currentGUID : String) :
    fetchAndParse cacheTTL cache now (.error e) name currentGUID
      = { result := .error e, cache := cache, invoked := true } := rfl

theorem fetchAndParse_empty {stdout : String} (cacheTTL : Int)
    (cache : List (String × zdbCacheEntry)) (now : Int) (name currentGUID : String)
    (h : zdbOutputLines stdout = []) :
    fetchAndParse cacheTTL cache now (.ok stdout) name currentGUID
      = { result := .error (("no output from zdb for pool ") ++ name),
          cache := cache, invoked := true } := by
  simp only [fetchAndParse]
  rw [if_pos h]

theorem fetchAndParse_parse_error {stdout e : String} (cacheTTL : Int)
    (cache : List (String × zdbCacheEntry)) (now : Int) (name currentGUID : String)
    (hne : zdbOutputLines stdout ≠ [])
    (hp : parsePoolLines name currentGUID (zdbOutputLines stdout) = .error e) :
    fetchAndParse cacheTTL cache now (.ok stdout) name currentGUID
      = { result := .error e, cache := cache, invoked := true } := by
  simp only [fetchAndParse]
  rw [if_neg hne, hp]

theorem fetchAndParse_parse_ok {stdout : String} {pool : ZDBPool} (cacheTTL : Int)
    (cache : List (String × zdbCacheEntry)) (now : Int) (name currentGUID : String)
    (hne : zdbOutputLines stdout ≠ [])
    (hp : parsePoolLines name currentGUID (zdbOutputLines stdout) = .ok pool) :
    fetchAndParse cacheTTL cache now (.ok stdout) name currentGUID
      = { result := .ok pool,
          cache :=
            if cacheTTL > 0 then
              mapSet cache (cacheKey name currentGUID)
                { pool := pool, guid := currentGUID, expiry := now + cacheTTL }
            else cache,
          invoked := true } := by
  simp only [fetchAndParse]
  rw [if_neg hne, hp]

theorem fetchAndParse_invoked (cacheTTL : Int) (cache : List (String × zdbCacheEntry))
    (now : Int) (fetch : Except String String) (name currentGUID : String) :
    (fetchAndParse cacheTTL cache now fetch name currentGUID).invoked = true := by
  cases fetch with
  | error e => rfl
  | ok stdout =>
    simp only [fetchAndParse]
    split
    · rfl
    · split <;> rfl

theorem fetchAndParse_cache_of_nonpos {cacheTTL : Int} (hTTL : cacheTTL ≤ 0)
    (cache : List (String × zdbCacheEntry)) (now : Int) (fetch : Except String String)
    (name currentGUID : String) :
    (fetchAndParse cacheTTL cache now fetch name currentGUID).cache = cache := by
  cases fetch with
  | error e => rfl
  | ok stdout =>
    simp only [fetchAndParse]
    split
    · rfl
    · split
      · rfl
      · show (if cacheTTL > 0 then _ else cache) = cache
        rw [if_neg (by omega)]

theorem fetchAndParse_result_cache_independent (cacheTTL : Int)
    (cache cache2 : List (String × zdbCacheEntry)) (now : Int) (fetch : Except String String)
    (name currentGUID : String) :
    (fetchAndParse cacheTTL cache now fetch name currentGUID).result
      = (fetchAndParse cacheTTL cache2 now fetch name currentGUID).result := by
  cases fetch with
  | error e => rfl
  | ok stdout =>
    simp only [fetchAndParse]
    split
    · rfl
    · split <;> rfl

/-- The parser never touches the pool-level GUID: a successful parse returns
it exactly as initialised from the caller's argument. -/
theorem parsePoolLines_GUID {name currentGUID : String} {ls : List String} {pool : ZDBPool}
    (h : parsePoolLines name currentGUID ls = .ok pool) : pool.GUID = currentGUID := by
  unfold parsePoolLines at h
  cases hrun : runLines (initState name currentGUID) ls with
  | error e => rw [hrun] at h; cases h
  | ok st =>
    rw [hrun] at h
    simp only [Except.map] at h
    cases h
    exact runLines_pool_GUID hrun

/-! ### Claims -/

/-- C1: for every input, when the parser processes a `type` line at depth
`d` (`d` = count of leading TAB characters) in any state reached from the
initial state, it pops every stack frame whose recorded opening depth is
`≥ d`, attaches the new node as a child of the node now on top of the stack
(or as a new top-level child of the pool record if the stack is empty), and
pushes the new node with depth `d`: the code's step equals
`typeStepFromSpec`, the step as the specification words it. -/
theorem claim1_type_line_pops_attaches_pushes
    (name currentGUID : String) (ls : List String) (s : ParseState)
    (raw val : String) (d : Nat)
    (hrun : runLines (initState name currentGUID) ls = .ok s)
    (hshape : parseLineShape raw = some (("type" : String), val, d)) :
    processLine s raw = .ok (typeStepFromSpec s val d) := by
  have hinv := runLines_inv (initState_inv name currentGUID) hrun
  rw [processLine_some s hshape,
    if_neg (by rintro ⟨-, hv | hv⟩ <;> exact absurd hv (by decide)),
    if_pos rfl, typeStep_eq_spec hinv.1 val d]

/-- Witness for C1: the concrete state reached after `"\ttype: root"`,
processing the sibling line `"\ttype: sib"` at depth 1. -/
theorem claim1_witness :
    processLine witnessState ("\ttype: sib")
      = .ok (typeStepFromSpec witnessState ("sib") 1) :=
  claim1_type_line_pops_attaches_pushes ("t") ("") [("\ttype: root")] witnessState
    ("\ttype: sib") ("sib") 1 (by rfl) (by rfl)

/-- C3: a non-`type` property line processed while the stack is non-empty
is handed to `parseProp` on the node on top of the stack (`propStep`, which
does not look at the line's depth at all): any two raw lines carrying the
same field and value are processed identically regardless of their
indentation, and on success the stack — hence every node's position in the
tree — is unchanged. -/
theorem claim3_property_attaches_to_top
    (s : ParseState) (raw prop val : String) (d : Nat)
    (hstack : s.stack ≠ [])
    (hshape : parseLineShape raw = some (prop, val, d))
    (htype : prop ≠ ("type")) :
    processLine s raw = propStep s prop val
    ∧ (∀ (raw2 : String) (d2 : Nat), parseLineShape raw2 = some (prop, val, d2) →
        processLine s raw2 = processLine s raw)
    ∧ (∀ s2, propStep s prop val = .ok s2 → s2.stack = s.stack) := by
  have hmain : processLine s raw = propStep s prop val := by
    rw [processLine_some s hshape, if_neg (fun hc => hstack hc.1), if_neg htype]
  refine ⟨hmain, ?_, ?_⟩
  · intro raw2 d2 hshape2
    rw [processLine_some s hshape2, if_neg (fun hc => hstack hc.1), if_neg htype, hmain]
  · intro s2 h2
    cases hst : s.stack with
    | nil => exact absurd hst hstack
    | cons fr rest =>
      rw [propStep_cons hst prop val] at h2
      cases hup : updForest s.pool.Children fr.path (fun c => c.parseProp prop val) with
      | error e => rw [hup] at h2; cases h2
      | ok cs1 =>
        rw [hup] at h2
        simp only [Except.map] at h2
        cases h2
        exact hst

/-- Witness for C3: the line `"path: /x"` (depth 0!) processed in a state
whose open node was opened at depth 1. -/
theorem claim3_witness :
    processLine witnessState ("path: /x") = propStep witnessState ("path") ("/x")
    ∧ (∀ (raw2 : String) (d2 : Nat),
        parseLineShape raw2 = some (("path"), ("/x"), d2) →
        processLine witnessState raw2 = processLine witnessState ("path: /x"))
    ∧ (∀ s2, propStep witnessState ("path") ("/x") = .ok s2 →
        s2.stack = witnessState.stack) :=
  claim3_property_attaches_to_top witnessState ("path: /x") ("path") ("/x") 0
    (by decide) (by rfl) (by decide)

/-- Counterexample for C4: on `guid: not-a-number` under an open node the
parse aborts with `failed to parse guid: expected integer` — an error that
names the offending field but does **not** name the pool (`tank` is not a
substring of the message), contradicting the claim that the error names
"the offending field and the pool". -/
theorem claim4_counterexample :
    (GetPool 0 [] 0 (.ok ("\ttype: root\n\tguid: not-a-number")) ("tank") ("")).result
      = .error ("failed to parse guid: expected integer")
    ∧ ¬ List.IsInfix (("tank" : String).data)
        (("failed to parse guid: expected integer" : String).data) := by
  constructor
  · rfl
  · decide

/-- C4 as amended: if, in a reachable state with an open node, a line
carries a recognized numeric field whose value fails conversion (inner
error `m`), the entire parse of any input containing that line at that
point aborts with the field-named error `failed to parse <field>: <m>`
(which does not mention the pool), and no record is returned. -/
theorem claim4_amended
    (name currentGUID : String) (ls1 : List String) (raw : String) (ls2 : List String)
    (s : ParseState) (prop val : String) (d : Nat) (m : String)
    (hrun : runLines (initState name currentGUID) ls1 = .ok s)
    (hstack : s.stack ≠ [])
    (hshape : parseLineShape raw = some (prop, val, d))
    (hscan : fieldScanErr prop val = some m) :
    parsePoolLines name currentGUID (ls1 ++ raw :: ls2) = .error (fieldErrMsg prop m) := by
  have htype : prop ≠ ("type") := by
    intro he
    rw [he] at hscan
    cases hscan
  unfold parsePoolLines
  rw [runLines_append, hrun]
  show ((processLine s raw).bind (fun s1 => runLines s1 ls2)).map (fun st => st.pool)
      = .error (fieldErrMsg prop m)
  rw [processLine_some s hshape, if_neg (fun hc => hstack hc.1), if_neg htype]
  cases hst : s.stack with
  | nil => exact absurd hst hstack
  | cons fr rest =>
    rw [propStep_cons hst prop val]
    have hinv := runLines_inv (initState_inv name currentGUID) hrun
    have hpo : pathOk s.pool.Children fr.path = true :=
      hinv.2 fr (hst ▸ List.mem_cons_self fr rest)
    rw [updForest_error_of_const (fun c => parseProp_scan_error hscan c) fr.path
      s.pool.Children hpo]
    rfl

/-- Witness for C4: the failing line `"\tguid: not-a-number"` after
`"\ttype: root"`. -/
theorem claim4_witness :
    parsePoolLines ("tank") ("") ([("\ttype: root")] ++ ("\tguid: not-a-number") :: [])
      = .error (fieldErrMsg ("guid") ("expected integer")) :=
  claim4_amended ("tank") ("")
    [("\ttype: root")] ("\tguid: not-a-number") []
    { pool :=
        { Name := ("tank")
          GUID := ("")
          Version := ("")
          Children := [ZDBPoolChild.mk
            { type_ := ("root"), Properties := [(("type" : String), ("root" : String))] } []] }
      stack := [⟨[0], 1⟩] }
    ("guid") ("not-a-number") 1 ("expected integer")
    (by rfl) (by decide) (by rfl) (by rfl)

/-- Counterexample for C5: the whitespace-only stdout `" "` is **not**
rejected — `GetPool` returns a record with no children (only input that is
empty after trailing-newline trimming yields the no-output error). -/
theorem claim5_counterexample :
    (GetPool 0 [] 0 (.ok (" ")) ("tank") ("")).result
      = .ok { Name := ("tank"), GUID := (""), Version := (""), Children := [] } := rfl

/-- C5 as amended: for every fetched text that is empty or consists only of
newline characters, a `GetPool` call that does not hit a live cache entry
returns the `no output from zdb for pool <name>` error, no record, and
leaves the cache unchanged. -/
theorem claim5_amended
    (cacheTTL : Int) (cache : List (String × zdbCacheEntry)) (now : Int)
    (stdout name currentGUID : String)
    (hnl : ∀ ch ∈ stdout.data, ch = '\n')
    (hlive : liveEntry cacheTTL cache (cacheKey name currentGUID) now = none) :
    (GetPool cacheTTL cache now (.ok stdout) name currentGUID).result
      = .error (("no output from zdb for pool ") ++ name)
    ∧ (GetPool cacheTTL cache now (.ok stdout) name currentGUID).cache = cache := by
  have htext : goTrimRightNewlines stdout = "" := by
    unfold goTrimRightNewlines
    have hd : stdout.data.reverse.dropWhile (fun c => c = '\n') = [] := by
      rw [List.dropWhile_eq_nil_iff]
      intro a ha
      have := hnl a (List.mem_reverse.mp ha)
      simp [this]
    rw [hd]
    rfl
  have hlines : zdbOutputLines stdout = [] := by
    unfold zdbOutputLines
    rw [htext]
    rfl
  rw [GetPool_miss hlive, fetchAndParse_empty cacheTTL cache now name currentGUID hlines]
  exact ⟨rfl, rfl⟩

/-- Witness for C5: stdout `"\n"`, caching disabled. -/
theorem claim5_witness :
    (GetPool 0 [] 0 (.ok ("\n")) ("tank") ("")).result
      = .error (("no output from zdb for pool ") ++ ("tank"))
    ∧ (GetPool 0 [] 0 (.ok ("\n")) ("tank") ("")).cache = [] :=
  claim5_amended 0 [] 0 ("\n") ("tank") ("") (by decide) (by rfl)

/-- C6: with caching enabled, a live cache entry (current time before its
expiry) is returned as-is with no external invocation and no cache change;
and a miss that fetches and parses successfully returns the fresh record,
invokes the external command, and stores the record under the key with
expiry `now + TTL`. -/
theorem claim6_cache_hit_and_store
    (cacheTTL : Int) (cache : List (String × zdbCacheEntry)) (now : Int)
    (fetch : Except String String) (name currentGUID : String)
    (entry : zdbCacheEntry) (stdout : String) (pool : ZDBPool) :
    (cacheTTL > 0 → cache.lookup (cacheKey name currentGUID) = some entry →
      now < entry.expiry →
      GetPool cacheTTL cache now fetch name currentGUID
        = { result := .ok entry.pool, cache := cache, invoked := false })
    ∧ (liveEntry cacheTTL cache (cacheKey name currentGUID) now = none →
      cacheTTL > 0 → fetch = .ok stdout →
      zdbOutputLines stdout ≠ [] →
      parsePoolLines name currentGUID (zdbOutputLines stdout) = .ok pool →
      GetPool cacheTTL cache now fetch name currentGUID
        = { result := .ok pool,
            cache := mapSet cache (cacheKey name currentGUID)
              { pool := pool, guid := currentGUID, expiry := now + cacheTTL },
            invoked := true }) := by
  constructor
  · intro httl hlook hnow
    have hlive : liveEntry cacheTTL cache (cacheKey name currentGUID) now = some entry := by
      unfold liveEntry
      rw [if_pos httl, hlook]
      show (if now < entry.expiry then some entry else none) = some entry
      rw [if_pos hnow]
    exact GetPool_hit hlive
  · intro hlive httl hfetch hne hp
    subst hfetch
    rw [GetPool_miss hlive,
      fetchAndParse_parse_ok cacheTTL cache now name currentGUID hne hp,
      if_pos httl]

/-- Witness for C6: a hit on a live entry and a miss that stores. -/
theorem claim6_witness :
    (GetPool 7
        [(("tank" : String), ⟨{ Name := ("tank"), GUID := (""), Version := ("1"), Children := [] }, (""), 9⟩)]
        2 (.error ("down")) ("tank") ("")
      = { result := .ok { Name := ("tank"), GUID := (""), Version := ("1"), Children := [] }
          cache := [(("tank" : String), ⟨{ Name := ("tank"), GUID := (""), Version := ("1"), Children := [] }, (""), 9⟩)]
          invoked := false })
    ∧ (GetPool 7 [] 2 (.ok ("version: 5000\nname: tank")) ("tank") ("")
      = { result := .ok { Name := ("tank"), GUID := (""), Version := ("5000"), Children := [] }
          cache := [(("tank" : String), ⟨{ Name := ("tank"), GUID := (""), Version := ("5000"), Children := [] }, (""), 9⟩)]
          invoked := true }) :=
  ⟨(claim6_cache_hit_and_store 7
      [(("tank" : String), ⟨{ Name := ("tank"), GUID := (""), Version := ("1"), Children := [] }, (""), 9⟩)]
      2 (.error ("down")) ("tank") ("")
      ⟨{ Name := ("tank"), GUID := (""), Version := ("1"), Children := [] }, (""), 9⟩
      ("") { Name := ("tank"), GUID := (""), Version := (""), Children := [] }).1
      (by decide) (by rfl) (by decide),
   (claim6_cache_hit_and_store 7 [] 2 (.ok ("version: 5000\nname: tank")) ("tank") ("")
      ⟨{ Name := ("tank"), GUID := (""), Version := (""), Children := [] }, (""), 0⟩
      ("version: 5000\nname: tank")
      { Name := ("tank"), GUID := (""), Version := ("5000"), Children := [] }).2
      (by rfl) (by decide) (by rfl) (by decide) (by rfl)⟩

/-- Counterexample for C7: the configured TTL `-1` second is `≤ 0`, yet
`NewClient` replaces it by the five-minute default, so caching is enabled:
a call finding a live entry reads the cache and performs no external
invocation, contradicting "caching is disabled: every GetPool call invokes
the external collaborator ... and no cache entry is read". -/
theorem claim7_counterexample :
    ((-1 : Int) ≤ 0)
    ∧ newClientZDBCacheTTL (-1) = 300000000000
    ∧ (GetPool (newClientZDBCacheTTL (-1))
        [(("a" : String), ⟨{ Name := ("a"), GUID := (""), Version := (""), Children := [] }, (""), 10⟩)]
        5 (.error ("boom")) ("a") ("")).invoked = false
    ∧ (GetPool (newClientZDBCacheTTL (-1))
        [(("a" : String), ⟨{ Name := ("a"), GUID := (""), Version := (""), Children := [] }, (""), 10⟩)]
        5 (.error ("boom")) ("a") ("")).result
        = .ok { Name := ("a"), GUID := (""), Version := (""), Children := [] } :=
  ⟨by decide, rfl, rfl, rfl⟩

/-- C7 as amended: an *effective* cache TTL `≤ 0` (which the configuration
yields exactly for a configured value of `0`; negative configured values
are replaced by the five-minute default) disables caching: every call
invokes the external collaborator, the result is independent of the cache
contents, and the cache is left unchanged. -/
theorem claim7_amended
    (cacheTTL : Int) (hTTL : cacheTTL ≤ 0)
    (cache : List (String × zdbCacheEntry)) (now : Int) (fetch : Except String String)
    (name currentGUID : String) :
    (GetPool cacheTTL cache now fetch name currentGUID).invoked = true
    ∧ (GetPool cacheTTL cache now fetch name currentGUID).cache = cache
    ∧ (GetPool cacheTTL cache now fetch name currentGUID).result
        = (GetPool cacheTTL [] now fetch name currentGUID).result
    ∧ newClientZDBCacheTTL 0 = 0 := by
  have hlive : ∀ (c : List (String × zdbCacheEntry)),
      liveEntry cacheTTL c (cacheKey name currentGUID) now = none := by
    intro c
    unfold liveEntry
    rw [if_neg (by omega)]
  refine ⟨?_, ?_, ?_, rfl⟩
  · rw [GetPool_miss (hlive cache)]
    exact fetchAndParse_invoked cacheTTL cache now fetch name currentGUID
  · rw [GetPool_miss (hlive cache)]
    exact fetchAndParse_cache_of_nonpos hTTL cache now fetch name currentGUID
  · rw [GetPool_miss (hlive cache), GetPool_miss (hlive [])]
    exact fetchAndParse_result_cache_independent cacheTTL cache [] now fetch name currentGUID

/-- Witness for C7 (amended): effective TTL `0`, non-empty cache, failing
fetch. -/
theorem claim7_witness :
    (GetPool 0 [(("k" : String), ⟨{ Name := ("k"), GUID := (""), Version := (""), Children := [] }, (""), 99⟩)]
        1 (.error ("down")) ("k") ("")).invoked = true
    ∧ (GetPool 0 [(("k" : String), ⟨{ Name := ("k"), GUID := (""), Version := (""), Children := [] }, (""), 99⟩)]
        1 (.error ("down")) ("k") ("")).cache
      = [(("k" : String), ⟨{ Name := ("k"), GUID := (""), Version := (""), Children := [] }, (""), 99⟩)]
    ∧ (GetPool 0 [(("k" : String), ⟨{ Name := ("k"), GUID := (""), Version := (""), Children := [] }, (""), 99⟩)]
        1 (.error ("down")) ("k") ("")).result
      = (GetPool 0 [] 1 (.error ("down")) ("k") ("")).result
    ∧ newClientZDBCacheTTL 0 = 0 :=
  claim7_amended 0 (by decide)
    [(("k" : String), ⟨{ Name := ("k"), GUID := (""), Version := (""), Children := [] }, (""), 99⟩)]
    1 (.error ("down")) ("k") ("")

/-- C8: every failing `GetPool` call (external invocation error, empty
output, or parse error) propagates the error and leaves the cache map
completely unchanged — nothing is written for the key and any pre-existing
(possibly expired) entry is untouched. -/
theorem claim8_failure_leaves_cache
    (cacheTTL : Int) (cache : List (String × zdbCacheEntry)) (now : Int)
    (fetch : Except String String) (name currentGUID : String) (e : String)
    (herr : (GetPool cacheTTL cache now fetch name currentGUID).result = .error e) :
    (GetPool cacheTTL cache now fetch name currentGUID).cache = cache := by
  cases hlive : liveEntry cacheTTL cache (cacheKey name currentGUID) now with
  | some entry =>
    rw [GetPool_hit hlive] at herr
    cases herr
  | none =>
    rw [GetPool_miss hlive] at herr ⊢
    cases fetch with
    | error e2 => rfl
    | ok stdout =>
      by_cases hempty : zdbOutputLines stdout = []
      · rw [fetchAndParse_empty cacheTTL cache now name currentGUID hempty]
      · cases hp : parsePoolLines name currentGUID (zdbOutputLines stdout) with
        | error e2 =>
          rw [fetchAndParse_parse_error cacheTTL cache now name currentGUID hempty hp]
        | ok pool =>
          rw [fetchAndParse_parse_ok cacheTTL cache now name currentGUID hempty hp] at herr
          cases herr

/-- Witness for C8: a failing fetch with a pre-existing expired entry in
the cache; the entry survives untouched. -/
theorem claim8_witness :
    (GetPool 5 [(("tank" : String), ⟨{ Name := ("tank"), GUID := (""), Version := (""), Children := [] }, (""), 3⟩)]
        10 (.error ("boom")) ("tank") ("")).cache
      = [(("tank" : String), ⟨{ Name := ("tank"), GUID := (""), Version := (""), Children := [] }, (""), 3⟩)] :=
  claim8_failure_leaves_cache 5
    [(("tank" : String), ⟨{ Name := ("tank"), GUID := (""), Version := (""), Children := [] }, (""), 3⟩)]
    10 (.error ("boom")) ("tank") ("") ("boom") (by rfl)

/-- C9: every successful `GetPool` result produced by a fresh fetch and
parse (`invoked = true`) carries the caller-supplied GUID verbatim: no line
of the parsed text ever modifies the record's GUID field. -/
theorem claim9_guid_passthrough
    (cacheTTL : Int) (cache : List (String × zdbCacheEntry)) (now : Int)
    (fetch : Except String String) (name currentGUID : String) (p : ZDBPool)
    (hinvoked : (GetPool cacheTTL cache now fetch name currentGUID).invoked = true)
    (hok : (GetPool cacheTTL cache now fetch name currentGUID).result = .ok p) :
    p.GUID = currentGUID := by
  cases hlive : liveEntry cacheTTL cache (cacheKey name currentGUID) now with
  | some entry =>
    rw [GetPool_hit hlive] at hinvoked
    cases hinvoked
  | none =>
    rw [GetPool_miss hlive] at hok
    cases fetch with
    | error e =>
      rw [fetchAndParse_err cacheTTL cache now e name currentGUID] at hok
      cases hok
    | ok stdout =>
      by_cases hempty : zdbOutputLines stdout = []
      · rw [fetchAndParse_empty cacheTTL cache now name currentGUID hempty] at hok
        cases hok
      · cases hp : parsePoolLines name currentGUID (zdbOutputLines stdout) with
        | error e =>
          rw [fetchAndParse_parse_error cacheTTL cache now name currentGUID hempty hp] at hok
          cases hok
        | ok pool =>
          rw [fetchAndParse_parse_ok cacheTTL cache now name currentGUID hempty hp] at hok
          have hpe : pool = p := by
            have hok2 : Except.ok (ε := String) pool = .ok p := hok
            injection hok2
          rw [← hpe]
          exact parsePoolLines_GUID hp

/-- Witness for C9: a fresh fetch for pool `tank` with caller GUID `g1`. -/
theorem claim9_witness :
    ({ Name := ("tank"), GUID := ("g1"), Version := ("5000"), Children := [] } : ZDBPool).GUID
      = ("g1") :=
  claim9_guid_passthrough 0 [] 0 (.ok ("version: 5000\nname: tank")) ("tank") ("g1")
    { Name := ("tank"), GUID := ("g1"), Version := ("5000"), Children := [] }
    (by rfl) (by rfl)

/-- C10: the cache key computation is not injective — the distinct
identities `("a|b", "")` and `("a", "b")` share the key `"a|b"` — and
behaviourally, a record cached by a call for the first identity is served
(without external invocation) to a later live-window call for the second. -/
theorem claim10_cache_key_collision :
    cacheKey ("a|b") ("") = cacheKey ("a") ("b")
    ∧ ((("a|b" : String), ("" : String)) ≠ (("a" : String), ("b" : String)))
    ∧ (GetPool 1000 [] 0 (.ok ("version: 5000\nname: ab")) ("a|b") ("")).cache
      = [(("a|b" : String), ⟨{ Name := ("ab"), GUID := (""), Version := ("5000"), Children := [] }, (""), 1000⟩)]
    ∧ (GetPool 1000
        [(("a|b" : String), ⟨{ Name := ("ab"), GUID := (""), Version := ("5000"), Children := [] }, (""), 1000⟩)]
        500 (.error ("unused")) ("a") ("b")).result
      = .ok { Name := ("ab"), GUID := (""), Version := ("5000"), Children := [] }
    ∧ (GetPool 1000
        [(("a|b" : String), ⟨{ Name := ("ab"), GUID := (""), Version := ("5000"), Children := [] }, (""), 1000⟩)]
        500 (.error ("unused")) ("a") ("b")).invoked = false :=
  ⟨rfl, by decide, rfl, rfl, rfl⟩

/-- Counterexample for C2: the sample input described by the claim has
thirteen lines, not twelve, and the parsed node's generic property map has
exactly eleven entries (`type` through `create_txg`), not twelve. -/
theorem claim2_counterexample :
    sampleLines.length = 13
    ∧ ¬ sampleLines.length = 12
    ∧ (parsePoolLines ("tank") ("") sampleLines).map
        (fun p => p.Children.map (fun c => c.data.Properties.length)) = .ok [11]
    ∧ ¬ (parsePoolLines ("tank") ("") sampleLines).map
        (fun p => p.Children.map (fun c => c.data.Properties.length)) = .ok [12] := by
  refine ⟨rfl, by decide, rfl, ?_⟩
  intro h
  have h2 : (Except.ok [11] : Except String (List Nat)) = .ok [12] :=
    ((rfl : (parsePoolLines ("tank") ("") sampleLines).map
        (fun p => p.Children.map (fun c => c.data.Properties.length)) = .ok [11]).symm).trans h
  have h3 : ([11] : List Nat) = [12] := by injection h2
  exact absurd h3 (by decide)

/-- C2 as amended: parsing the thirteen-line sample yields the record with
`Version "5000"`, `Name "tank"`, and exactly one top-level node carrying
all eleven typed fields and a generic property map with string entries for
exactly the eleven fields `type` through `create_txg`, and no children. -/
theorem claim2_amended :
    parsePoolLines ("tank") ("") sampleLines
      = .ok
        { Name := ("tank")
          GUID := ("")
          Version := ("5000")
          Children := [ZDBPoolChild.mk
            { type_ := ("root")
              ID := 0
              GUID := 12345678901234567890
              Path := ("/dev/ada0p3")
              WholeDisk := 0
              MetaslabArray := 71
              MetaslabShift := 24
              Ashift := 9
              Asize := 10737418240
              IsLog := 0
              CreateTXG := 4
              Properties := [(("type" : String), ("root" : String)),
                (("id" : String), ("0" : String)),
                (("guid" : String), ("12345678901234567890" : String)),
                (("path" : String), ("/dev/ada0p3" : String)),
                (("whole_disk" : String), ("0" : String)),
                (("metaslab_array" : String), ("71" : String)),
                (("metaslab_shift" : String), ("24" : String)),
                (("ashift" : String), ("9" : String)),
                (("asize" : String), ("10737418240" : String)),
                (("is_log" : String), ("0" : String)),
                (("create_txg" : String), ("4" : String))] } []] } := rfl

end GZFS
